import Mathlib

/-!
# go-aws-mon: the metric collection and submission pipeline of `main`

A shallow embedding of `src/go-aws-mon.go`.  The only function of the file is
`main`; it is embedded as explicit state passing over

* the parsed `Options`,
* an environment `Env` holding the collaborators that `main` calls but that
  live in other files of the package (`getInstanceMetadata`, `memoryUsage`,
  `getDimensions`, `getAutoscalingGroup`, `addMetric`, `DiskSpace`,
  `putMetric`) together with the library calls whose result `main` only
  passes on (`parser.Parse`, `float64(..)`, `GoString`),
* a trace of the calls `main` makes, in execution order.

`log.Fatal` ends the run with `Outcome.fatal`; an assignment into a nil map
ends it with `Outcome.nilMapAssign`.
-/

namespace GoAwsMon

/-! ## Data model -/

/-- The `Options` struct, lines 14-31, fields in declaration order. -/
structure Options where
  IsAggregated : Bool
  IsAutoScaling : Bool
  IsMemUtil : Bool
  IsMemUsed : Bool
  IsMemAvail : Bool
  IsSwapUtil : Bool
  IsSwapUsed : Bool
  IsDiskSpaceUtil : Bool
  IsDiskSpaceUsed : Bool
  IsDiskSpaceAvail : Bool
  IsDiskInodeUtil : Bool
  NameSpace : String
  DiskPaths : String
  IsDryRun : Bool
  deriving DecidableEq

/-- A `float64`, carried as its 64-bit pattern: `main` never computes on one. -/
abbrev Float64 := Nat

/-- A Go `error` value: `none` is `nil`, `some msg` an error with text `msg`. -/
abbrev GoError := Option String

/-- A Go `map[string]string`: the nil map, or a list of key/value entries. -/
inductive GoMap where
  | nilMap
  | entries (kvs : List (String × String))
  deriving DecidableEq

/-- The value stored under `key`, the empty string when there is none. -/
def lookupEntry : List (String × String) → String → String
  | [], _ => ""
  | (k, v) :: rest, key => if k = key then v else lookupEntry rest key

/-- Store `v` under `key`, overwriting the entry when the key is present. -/
def assignEntry : List (String × String) → String → String → List (String × String)
  | [], key, v => [(key, v)]
  | (k, w) :: rest, key, v =>
    if k = key then (k, v) :: rest else (k, w) :: assignEntry rest key v

/-- The Go expression `m[key]`: reading a nil map gives the zero value. -/
def GoMap.get : GoMap → String → String
  | .nilMap, _ => ""
  | .entries kvs, key => lookupEntry kvs key

/-- The Go statement `m[key] = v`: `none` is the runtime error of writing to a nil map. -/
def GoMap.set : GoMap → String → String → Option GoMap
  | .nilMap, _, _ => none
  | .entries kvs, key, v => some (.entries (assignEntry kvs key v))

/-- Whether the map has an entry for `key`. -/
def GoMap.hasKey : GoMap → String → Bool
  | .nilMap, _ => false
  | .entries kvs, key => kvs.any (fun kv => kv.1 == key)

/-- A `cloudwatch.Dimension`: a name/value pair. -/
structure Dimension where
  name : String
  value : String
  deriving DecidableEq

/-- A `cloudwatch.MetricDatum` as far as `main` determines it: the four
arguments that `addMetric` receives besides the batch. -/
structure MetricDatum where
  metricName : String
  unit : String
  value : Float64
  dimensions : List Dimension
  deriving DecidableEq

/-- The calls `main` makes to its collaborators and to standard output. -/
inductive Event where
  | getInstanceMetadata
  | memoryUsage
  | getDimensions (metadata : GoMap)
  | getAutoscalingGroup (instanceId region : String)
  | addMetric (name unit : String) (value : Float64) (dims : List Dimension)
  | DiskSpace (path : String)
  | printf (format : String)
  | putMetric (batch : List MetricDatum) (ns region : String)
  deriving DecidableEq

/-- How a run ends. -/
inductive Outcome where
  | returned
  | exit (code : Nat)
  | fatal (msg : String)
  | nilMapAssign
  deriving DecidableEq

/-- The error of `parser.Parse`, as far as line 39 tells errors apart. -/
inductive FlagsError where
  | help
  | other
  deriving DecidableEq

/-- The result of `memoryUsage()`, line 61. -/
structure MemSample where
  memUtil : Float64
  memUsed : Float64
  memAvail : Float64
  swapUtil : Float64
  swapUsed : Float64
  err : GoError
  deriving DecidableEq

/-- The result of `DiskSpace(path)`, line 117. -/
structure DiskSample where
  diskspaceUtil : Float64
  diskspaceUsed : Nat
  diskspaceAvail : Nat
  diskinodesUtil : Float64
  err : GoError
  deriving DecidableEq

/-- The collaborators of `main`.  `getAutoscalingGroup` and `DiskSpace` are
called repeatedly, so they also receive the calls made so far: two calls with
the same arguments may answer differently. -/
structure Env where
  parserParse : Option FlagsError
  getInstanceMetadata : GoMap × GoError
  memoryUsage : MemSample
  getDimensions : GoMap → List Dimension
  getAutoscalingGroup : List Event → String → String → Option String × GoError
  addMetric : String → String → Float64 → List Dimension → List MetricDatum →
    List MetricDatum × GoError
  DiskSpace : List Event → String → DiskSample
  float64 : Nat → Float64
  GoString : MetricDatum → String
  putMetric : List MetricDatum → String → String → GoError

/-- The variables of `main` that live across its sections, with the trace so far. -/
structure St where
  trace : List Event
  metadata : GoMap
  metricData : List MetricDatum

/-- A finished run: its trace and how it ended. -/
structure Halt where
  trace : List Event
  outcome : Outcome
  deriving DecidableEq

/-- Record one call. -/
def St.log (st : St) (e : Event) : St :=
  { st with trace := st.trace ++ [e] }

/-! ## `strings.Split(s, ",")` -/

/-- Split at every comma; `cur` is the current piece, reversed. -/
def splitAux : List Char → List Char → List (List Char)
  | [], cur => [cur.reverse]
  | c :: cs, cur =>
    if c = ',' then cur.reverse :: splitAux cs [] else splitAux cs (c :: cur)

/-- Go's `strings.Split(s, ",")`: always at least one piece. -/
def stringsSplit (s : String) : List String :=
  (splitAux s.toList []).map String.mk

/-! ## `main` -/

/-- The placeholder identity of a dry run, lines 54-58. -/
def placeholderMetadata : GoMap :=
  .entries [("region", "us-east-1"), ("imageId", "i-fakefakefake"), ("instanceType", "r3.fake")]

/-- Lines 38-44: the result of `parser.Parse()`. -/
def parseArgs (env : Env) : Except Halt Unit :=
  match env.parserParse with
  | none => .ok ()
  | some .help => .error ⟨[], .exit 0⟩
  | some .other => .error ⟨[], .fatal "Parsing command line options failed."⟩

/-- Lines 46-59: the identity the run starts from. -/
def loadMetadata (opts : Options) (env : Env) : Except Halt St :=
  if !opts.IsDryRun then
    match env.getInstanceMetadata.2 with
    | some e =>
      .error ⟨[.getInstanceMetadata],
        .fatal ("Can't get InstanceData, please confirm we are running on a AWS EC2 instance: " ++ e)⟩
    | none => .ok ⟨[.getInstanceMetadata], env.getInstanceMetadata.1, []⟩
  else
    .ok ⟨[], placeholderMetadata, []⟩

/-- Lines 65-68: the dimensions of the memory and swap records. -/
def memBaseDims (opts : Options) (env : Env) (st : St) : List Dimension × St :=
  if !opts.IsAggregated && !opts.IsDryRun then
    (env.getDimensions st.metadata, st.log (.getDimensions st.metadata))
  else
    ([], st)

/-- Lines 71-76 and 129-134: the dimension is appended when `as != nil && err == nil`,
where `err` is the one declared in the `if` statement itself. -/
def appendAutoScaling (dims : List Dimension) (r : Option String × GoError) : List Dimension :=
  match r.1, r.2 with
  | some as, none => dims ++ [⟨"AutoScalingGroupName", as⟩]
  | _, _ => dims

/-- Lines 70-80.  The `err` tested on line 77 is the variable declared on line 61
(the result of `memoryUsage`): the `err` of line 71 is scoped to its `if`. -/
def memAutoScaling (opts : Options) (env : Env) (mem : MemSample)
    (dims : List Dimension) (st : St) : Except Halt (List Dimension × St) :=
  if opts.IsAutoScaling && !opts.IsDryRun then
    let r := env.getAutoscalingGroup st.trace (st.metadata.get "instanceId") (st.metadata.get "region")
    let st1 := st.log (.getAutoscalingGroup (st.metadata.get "instanceId") (st.metadata.get "region"))
    match mem.err with
    | some e => .error ⟨st1.trace, .fatal e⟩
    | none => .ok (appendAutoScaling dims r, st1)
  else
    .ok (dims, st)

/-- One guarded `addMetric` call with its error check, as on lines 82-87. -/
def addIf (env : Env) (enabled : Bool) (name unit : String) (value : Float64)
    (dims : List Dimension) (msg : String) (st : St) : Except Halt St :=
  if enabled then
    let r := env.addMetric name unit value dims st.metricData
    let st1 : St := { st with trace := st.trace ++ [.addMetric name unit value dims],
                              metricData := r.1 }
    match r.2 with
    | some e => .error ⟨st1.trace, .fatal (msg ++ e)⟩
    | none => .ok st1
  else
    .ok st

/-- Lines 82-112: the memory and swap records, in source order. -/
def memMetrics (opts : Options) (env : Env) (mem : MemSample) (dims : List Dimension)
    (st : St) : Except Halt St :=
  addIf env opts.IsMemUtil "MemoryUtilization" "Percent" mem.memUtil dims
      "Can't add memory usage metric: " st >>= fun st =>
  addIf env opts.IsMemUsed "MemoryUsed" "Bytes" mem.memUsed dims
      "Can't add memory used metric: " st >>= fun st =>
  addIf env opts.IsMemAvail "MemoryAvail" "Bytes" mem.memAvail dims
      "Can't add memory available metric: " st >>= fun st =>
  addIf env opts.IsSwapUsed "SwapUsed" "Bytes" mem.swapUsed dims
      "Can't add swap used metric: " st >>= fun st =>
  addIf env opts.IsSwapUtil "SwapUtil" "Percent" mem.swapUtil dims
      "Can't add swap usage metric: " st

/-- Lines 123-126: the dimensions of the disk records of one path. -/
def diskBaseDims (opts : Options) (env : Env) (st : St) : List Dimension × St :=
  if !opts.IsAggregated then
    (env.getDimensions st.metadata, st.log (.getDimensions st.metadata))
  else
    ([], st)

/-- Lines 128-138.  The `err` tested on line 135 is the variable declared on
line 117 (the result of `DiskSpace`), passed here as `diskErr`. -/
def diskAutoScaling (opts : Options) (env : Env) (diskErr : GoError)
    (dims : List Dimension) (st : St) : Except Halt (List Dimension × St) :=
  if opts.IsAutoScaling then
    let r := env.getAutoscalingGroup st.trace (st.metadata.get "instanceId") (st.metadata.get "region")
    let st1 := st.log (.getAutoscalingGroup (st.metadata.get "instanceId") (st.metadata.get "region"))
    match diskErr with
    | some e => .error ⟨st1.trace, .fatal e⟩
    | none => .ok (appendAutoScaling dims r, st1)
  else
    .ok (dims, st)

/-- Lines 140-163: the disk records of one path, in source order. -/
def diskMetrics (opts : Options) (env : Env) (d : DiskSample) (dims : List Dimension)
    (st : St) : Except Halt St :=
  addIf env opts.IsDiskSpaceUtil "DiskUtilization" "Percent" d.diskspaceUtil dims
      "Can't add Disk Utilization metric: " st >>= fun st =>
  addIf env opts.IsDiskSpaceUsed "DiskUsed" "Bytes" (env.float64 d.diskspaceUsed) dims
      "Can't add Disk Used metric: " st >>= fun st =>
  addIf env opts.IsDiskSpaceAvail "DiskAvail" "Bytes" (env.float64 d.diskspaceAvail) dims
      "Can't add Disk Available metric: " st >>= fun st =>
  addIf env opts.IsDiskInodeUtil "DiskInodesUtilization" "Percent" d.diskinodesUtil dims
      "Can't add Disk Inodes Utilization metric: " st

/-- Lines 117-163: one iteration of the loop over the paths. -/
def diskStep (opts : Options) (env : Env) (val : String) (st : St) : Except Halt St :=
  let d := env.DiskSpace st.trace val
  let st1 := st.log (.DiskSpace val)
  match d.err with
  | some e => .error ⟨st1.trace, .fatal ("Can't get DiskSpace %s" ++ e)⟩
  | none =>
    match st1.metadata.set "fileSystem" val with
    | none => .error ⟨st1.trace, .nilMapAssign⟩
    | some m =>
      let st2 : St := { st1 with metadata := m }
      let bd := diskBaseDims opts env st2
      diskAutoScaling opts env d.err bd.1 bd.2 >>= fun ds =>
      diskMetrics opts env d ds.1 ds.2

/-- Lines 116-164: the loop over the paths. -/
def diskLoop (opts : Options) (env : Env) : List String → St → Except Halt St
  | [], st => .ok st
  | val :: rest, st => diskStep opts env val st >>= fun st1 => diskLoop opts env rest st1

/-- Lines 38-112: everything before the loop over the paths. -/
def memorySection (opts : Options) (env : Env) : Except Halt St :=
  parseArgs env >>= fun _ =>
  loadMetadata opts env >>= fun st0 =>
  let st1 := st0.log .memoryUsage
  let bd := memBaseDims opts env st1
  memAutoScaling opts env env.memoryUsage bd.1 bd.2 >>= fun ds =>
  memMetrics opts env env.memoryUsage ds.1 ds.2

/-- Lines 38-164: everything before submission.  The result is the state in
which line 166 is reached, or the run that ended earlier. -/
def collect (opts : Options) (env : Env) : Except Halt St :=
  memorySection opts env >>= fun st2 =>
  diskLoop opts env (stringsSplit opts.DiskPaths) st2

/-- Lines 166-176: dry-run output, or the one `putMetric` call. -/
def submit (opts : Options) (env : Env) (st : St) : Halt :=
  if opts.IsDryRun then
    ⟨st.trace ++ [.printf "Dry run. metric data that would be sent:\n"] ++
        st.metricData.map (fun datum => .printf (env.GoString datum)),
      .returned⟩
  else
    let tr := st.trace ++ [.putMetric st.metricData opts.NameSpace (st.metadata.get "region")]
    match env.putMetric st.metricData opts.NameSpace (st.metadata.get "region") with
    | some _ => ⟨tr, .fatal "Can't put CloudWatch Metric"⟩
    | none => ⟨tr, .returned⟩

/-- The function `main`, lines 37-177. -/
def main (opts : Options) (env : Env) : Halt :=
  match collect opts env with
  | .error h => h
  | .ok st => submit opts env st

/-! ## Vocabulary of the properties -/

/-- The trace of a section of `main`, whether it ended the run or not. -/
def traceOf {α : Type} (tr : α → List Event) : Except Halt α → List Event
  | .ok a => tr a
  | .error h => h.trace

/-- The identity maps handed to `getDimensions`, in call order. -/
def dimCalls : List Event → List GoMap
  | [] => []
  | .getDimensions m :: es => m :: dimCalls es
  | _ :: es => dimCalls es

/-- Whether the event is a call of `putMetric`. -/
def Event.isPutMetric : Event → Bool
  | .putMetric _ _ _ => true
  | _ => false

/-- Whether the event is a call of `getAutoscalingGroup`. -/
def Event.isGetAutoscalingGroup : Event → Bool
  | .getAutoscalingGroup _ _ => true
  | _ => false

/-- The record an `addMetric` call is asked to append, when the toggle is on. -/
def sel (enabled : Bool) (d : MetricDatum) : List MetricDatum :=
  if enabled then [d] else []

/-- The records requested on lines 82-112, in source order. -/
def memRecords (opts : Options) (mem : MemSample) (dims : List Dimension) : List MetricDatum :=
  sel opts.IsMemUtil ⟨"MemoryUtilization", "Percent", mem.memUtil, dims⟩ ++
  sel opts.IsMemUsed ⟨"MemoryUsed", "Bytes", mem.memUsed, dims⟩ ++
  sel opts.IsMemAvail ⟨"MemoryAvail", "Bytes", mem.memAvail, dims⟩ ++
  sel opts.IsSwapUsed ⟨"SwapUsed", "Bytes", mem.swapUsed, dims⟩ ++
  sel opts.IsSwapUtil ⟨"SwapUtil", "Percent", mem.swapUtil, dims⟩

/-- The records requested on lines 140-163, in source order. -/
def diskRecords (opts : Options) (env : Env) (d : DiskSample) (dims : List Dimension) :
    List MetricDatum :=
  sel opts.IsDiskSpaceUtil ⟨"DiskUtilization", "Percent", d.diskspaceUtil, dims⟩ ++
  sel opts.IsDiskSpaceUsed ⟨"DiskUsed", "Bytes", env.float64 d.diskspaceUsed, dims⟩ ++
  sel opts.IsDiskSpaceAvail ⟨"DiskAvail", "Bytes", env.float64 d.diskspaceAvail, dims⟩ ++
  sel opts.IsDiskInodeUtil ⟨"DiskInodesUtilization", "Percent", d.diskinodesUtil, dims⟩

/-- The number of enabled memory and swap toggles. -/
def memCount (opts : Options) : Nat :=
  opts.IsMemUtil.toNat + opts.IsMemUsed.toNat + opts.IsMemAvail.toNat +
    opts.IsSwapUtil.toNat + opts.IsSwapUsed.toNat

/-- The number of enabled disk toggles. -/
def diskCount (opts : Options) : Nat :=
  opts.IsDiskSpaceUtil.toNat + opts.IsDiskSpaceUsed.toNat + opts.IsDiskSpaceAvail.toNat +
    opts.IsDiskInodeUtil.toNat

/-- The assumption that `addMetric` appends exactly one record per call. -/
def AppendsOne (env : Env) : Prop :=
  ∀ n u v d b, (env.addMetric n u v d b).1.length = b.length + 1

/-- The assumption that `addMetric` appends the record made of its four arguments. -/
def AppendsRecord (env : Env) : Prop :=
  ∀ n u v d b, (env.addMetric n u v d b).1 = b ++ [⟨n, u, v, d⟩]

/-- What lines 70-76 and 128-134 may append: nothing, or one
`AutoScalingGroupName` dimension holding a group that the resolver returned
without an error; nothing when the block is skipped. -/
def AsgPart (env : Env) (active : Bool) (asg : List Dimension) : Prop :=
  (active = false → asg = []) ∧
  (asg = [] ∨ ∃ tr i r g, env.getAutoscalingGroup tr i r = (some g, none) ∧
    asg = [⟨"AutoScalingGroupName", g⟩])

/-- The identity `main` starts from: lines 46-59. -/
def initialIdentity (opts : Options) (env : Env) : GoMap :=
  if opts.IsDryRun then placeholderMetadata else env.getInstanceMetadata.1

/-- The dimensions of the disk records of path `p`: those of an identity map
whose `fileSystem` is `p` unless aggregated, then what lines 128-134 append. -/
def DiskDims (opts : Options) (env : Env) (p : String) (dims : List Dimension) : Prop :=
  ∃ m asg, m.get "fileSystem" = p ∧
    dims = (if opts.IsAggregated then [] else env.getDimensions m) ++ asg ∧
    AsgPart env opts.IsAutoScaling asg

/-- The dimensions of the memory and swap records: those of the initial
identity unless aggregated or dry run, then what lines 70-76 append. -/
def MemDims (opts : Options) (env : Env) (dims : List Dimension) : Prop :=
  ∃ asg,
    dims = (if !opts.IsAggregated && !opts.IsDryRun then
              env.getDimensions (initialIdentity opts env) else []) ++ asg ∧
    AsgPart env (opts.IsAutoScaling && !opts.IsDryRun) asg

/-- The assembled batch: `metricData` when line 166 is reached, `none` when
the run ended before. -/
def assembledBatch (opts : Options) (env : Env) : Option (List MetricDatum) :=
  match collect opts env with
  | .ok st => some st.metricData
  | .error _ => none

/-- The calls made by the `addMetric` lines and the auto-scaling blocks. -/
def Event.isAddOrGroup : Event → Bool
  | .addMetric _ _ _ _ => true
  | .getAutoscalingGroup _ _ => true
  | _ => false

/-- The calls made between line 61 and line 164. -/
def Event.isAssembly : Event → Bool
  | .memoryUsage => true
  | .getDimensions _ => true
  | .getAutoscalingGroup _ _ => true
  | .addMetric _ _ _ _ => true
  | .DiskSpace _ => true
  | _ => false

/-- The identity maps that one iteration of the loop hands to `getDimensions`. -/
def stepDims (opts : Options) (env : Env) (val : String) (st : St) : List GoMap :=
  match (env.DiskSpace st.trace val).err, st.metadata.set "fileSystem" val with
  | none, some m => if opts.IsAggregated then [] else [m]
  | _, _ => []

/-- The identity maps that the loop hands to `getDimensions`, in call order. -/
def loopDims (opts : Options) (env : Env) : List String → St → List GoMap
  | [], _ => []
  | val :: rest, st =>
    match diskStep opts env val st with
    | .error _ => stepDims opts env val st
    | .ok st1 => stepDims opts env val st ++ loopDims opts env rest st1

/-! ## Sample inputs -/

/-- The metric names of the memory and swap records. -/
def memMetricNames : List String :=
  ["MemoryUtilization", "MemoryUsed", "MemoryAvail", "SwapUsed", "SwapUtil"]

/-- The metric names of the disk records. -/
def diskMetricNames : List String :=
  ["DiskUtilization", "DiskUsed", "DiskAvail", "DiskInodesUtilization"]

/-- Name and unit of the memory and swap records, in the order of lines 82-112. -/
def memKinds (opts : Options) : List (String × String) :=
  (if opts.IsMemUtil then [("MemoryUtilization", "Percent")] else []) ++
  (if opts.IsMemUsed then [("MemoryUsed", "Bytes")] else []) ++
  (if opts.IsMemAvail then [("MemoryAvail", "Bytes")] else []) ++
  (if opts.IsSwapUsed then [("SwapUsed", "Bytes")] else []) ++
  (if opts.IsSwapUtil then [("SwapUtil", "Percent")] else [])

/-- Name and unit of the disk records of one path, in the order of lines 140-163. -/
def diskKinds (opts : Options) : List (String × String) :=
  (if opts.IsDiskSpaceUtil then [("DiskUtilization", "Percent")] else []) ++
  (if opts.IsDiskSpaceUsed then [("DiskUsed", "Bytes")] else []) ++
  (if opts.IsDiskSpaceAvail then [("DiskAvail", "Bytes")] else []) ++
  (if opts.IsDiskInodeUtil then [("DiskInodesUtilization", "Percent")] else [])

/-- Name and unit of the memory and swap records in the order of the toggles
in `Options`: mem-util, mem-used, mem-avail, swap-util, swap-used. -/
def toggleOrderMemKinds (opts : Options) : List (String × String) :=
  (if opts.IsMemUtil then [("MemoryUtilization", "Percent")] else []) ++
  (if opts.IsMemUsed then [("MemoryUsed", "Bytes")] else []) ++
  (if opts.IsMemAvail then [("MemoryAvail", "Bytes")] else []) ++
  (if opts.IsSwapUtil then [("SwapUtil", "Percent")] else []) ++
  (if opts.IsSwapUsed then [("SwapUsed", "Bytes")] else [])

/-- Name and unit of every record of a batch. -/
def kindsOf (batch : List MetricDatum) : List (String × String) :=
  batch.map (fun r => (r.metricName, r.unit))

/-- A dimension builder: instance id, image id and instance type, and the
file system when the identity has one. -/
def sampleDimensions (m : GoMap) : List Dimension :=
  [⟨"InstanceId", m.get "instanceId"⟩, ⟨"ImageId", m.get "imageId"⟩,
    ⟨"InstanceType", m.get "instanceType"⟩] ++
  (if m.hasKey "fileSystem" then [⟨"FileSystem", m.get "fileSystem"⟩] else [])

/-- An identity as the resolver of a running instance returns it. -/
def sampleIdentity : GoMap :=
  .entries [("region", "eu-west-1"), ("instanceId", "i-0abc"), ("imageId", "ami-1"),
    ("instanceType", "t2.micro")]

/-- An environment in which every collaborator succeeds; the instance is in
the auto-scaling group `web`. -/
def sampleEnv : Env where
  parserParse := none
  getInstanceMetadata := (sampleIdentity, none)
  memoryUsage := ⟨11, 12, 13, 14, 15, none⟩
  getDimensions := sampleDimensions
  getAutoscalingGroup := fun _ _ _ => (some "web", none)
  addMetric := fun n u v d b => (b ++ [⟨n, u, v, d⟩], none)
  DiskSpace := fun _ _ => ⟨21, 22, 23, 24, none⟩
  float64 := fun n => n
  GoString := fun r => r.metricName
  putMetric := fun _ _ _ => none

/-- As `sampleEnv`, but the auto-scaling resolver fails: it returns `(nil, err)`. -/
def groupErrorEnv : Env :=
  { sampleEnv with getAutoscalingGroup := fun _ _ _ => (none, some "DescribeAutoScalingInstances failed") }

/-- As `sampleEnv`, but the memory sampler fails. -/
def memErrorEnv : Env :=
  { sampleEnv with memoryUsage := ⟨0, 0, 0, 0, 0, some "cannot read /proc/meminfo"⟩ }

/-- Every toggle off, the defaults of lines 27-28, a live run. -/
def noOpts : Options :=
  { IsAggregated := false, IsAutoScaling := false, IsMemUtil := false, IsMemUsed := false,
    IsMemAvail := false, IsSwapUtil := false, IsSwapUsed := false, IsDiskSpaceUtil := false,
    IsDiskSpaceUsed := false, IsDiskSpaceAvail := false, IsDiskInodeUtil := false,
    NameSpace := "Linux/System", DiskPaths := "/", IsDryRun := false }

/-- The scenario of the specification: mem-util and disk-space-used, paths
`/,/data`, not aggregated, no auto-scaling, dry run. -/
def scenarioOpts : Options :=
  { noOpts with IsMemUtil := true, IsDiskSpaceUsed := true, DiskPaths := "/,/data",
                IsDryRun := true }

/-- A live run with mem-util, both swap toggles, disk-space-used and
disk-inode-util over the paths `/,/data`, with auto-scaling. -/
def liveOpts : Options :=
  { noOpts with IsAutoScaling := true, IsMemUtil := true, IsSwapUtil := true,
                IsSwapUsed := true, IsDiskSpaceUsed := true, IsDiskInodeUtil := true,
                DiskPaths := "/,/data" }

/-- A dry run with only the two swap toggles. -/
def swapOpts : Options :=
  { noOpts with IsSwapUtil := true, IsSwapUsed := true, IsDryRun := true }

/-- A live, aggregated run with auto-scaling and mem-util. -/
def aggregatedGroupOpts : Options :=
  { noOpts with IsAggregated := true, IsAutoScaling := true, IsMemUtil := true }

/-- A live run with auto-scaling and mem-util over the default path. -/
def groupOpts : Options :=
  { noOpts with IsAutoScaling := true, IsMemUtil := true }

/-- A dry run with mem-util over the default path. -/
def dryMemOpts : Options :=
  { noOpts with IsMemUtil := true, IsDryRun := true }

/-- A dry run with auto-scaling and disk-space-used over the default path. -/
def dryGroupOpts : Options :=
  { noOpts with IsAutoScaling := true, IsDiskSpaceUsed := true, IsDryRun := true }

/-- The state in which `liveOpts` on `sampleEnv` reaches line 166. -/
def liveState : St :=
  match collect liveOpts sampleEnv with
  | .ok st => st
  | .error h => ⟨h.trace, .nilMap, []⟩

/-- The first record of the batch of `liveOpts` on `sampleEnv`. -/
def liveFirstRecord : MetricDatum :=
  ⟨"MemoryUtilization", "Percent", 11,
    [⟨"InstanceId", "i-0abc"⟩, ⟨"ImageId", "ami-1"⟩, ⟨"InstanceType", "t2.micro"⟩,
     ⟨"AutoScalingGroupName", "web"⟩]⟩

/-! ## Sections of `main` that reach their end -/

theorem bind_ok_iff {α β : Type} (x : Except Halt α) (f : α → Except Halt β) (b : β) :
    (x >>= f) = .ok b ↔ ∃ a, x = .ok a ∧ f a = .ok b := by
  cases x <;> simp [bind, Except.bind]

theorem addIf_ok {env : Env} {en : Bool} {n u : String} {v : Float64} {d : List Dimension}
    {msg : String} {st st1 : St} (h : addIf env en n u v d msg st = .ok st1) :
    st1.metadata = st.metadata ∧
    st1.trace = st.trace ++ (if en then [Event.addMetric n u v d] else []) ∧
    st1.metricData = if en then (env.addMetric n u v d st.metricData).1 else st.metricData := by
  unfold addIf at h
  cases en
  · simp at h; subst h; simp
  · simp at h
    split at h
    · simp at h
    · simp at h; subst h; simp

theorem addIf_length {env : Env} (hlen : AppendsOne env) {en : Bool} {n u : String}
    {v : Float64} {d : List Dimension} {msg : String} {st st1 : St}
    (h : addIf env en n u v d msg st = .ok st1) :
    st1.metricData.length = st.metricData.length + en.toNat := by
  have h3 := (addIf_ok h).2.2
  cases en
  · simp [h3]
  · simp [h3, hlen n u v d st.metricData]

theorem addIf_records {env : Env} (hadd : AppendsRecord env) {en : Bool} {n u : String}
    {v : Float64} {d : List Dimension} {msg : String} {st st1 : St}
    (h : addIf env en n u v d msg st = .ok st1) :
    st1.metricData = st.metricData ++ sel en ⟨n, u, v, d⟩ := by
  have h3 := (addIf_ok h).2.2
  cases en
  · simp [h3, sel]
  · simp [h3, sel, hadd n u v d st.metricData]

theorem memMetrics_ok {opts : Options} {env : Env} {mem : MemSample} {dims : List Dimension}
    {st st1 : St} (h : memMetrics opts env mem dims st = .ok st1) :
    st1.metadata = st.metadata ∧
    (AppendsOne env → st1.metricData.length = st.metricData.length + memCount opts) ∧
    (AppendsRecord env → st1.metricData = st.metricData ++ memRecords opts mem dims) := by
  unfold memMetrics at h
  obtain ⟨s1, h1, h⟩ := (bind_ok_iff _ _ _).1 h
  obtain ⟨s2, h2, h⟩ := (bind_ok_iff _ _ _).1 h
  obtain ⟨s3, h3, h⟩ := (bind_ok_iff _ _ _).1 h
  obtain ⟨s4, h4, h5⟩ := (bind_ok_iff _ _ _).1 h
  refine ⟨?_, ?_, ?_⟩
  · rw [(addIf_ok h5).1, (addIf_ok h4).1, (addIf_ok h3).1, (addIf_ok h2).1, (addIf_ok h1).1]
  · intro hlen
    rw [addIf_length hlen h5, addIf_length hlen h4, addIf_length hlen h3,
      addIf_length hlen h2, addIf_length hlen h1, memCount]
    omega
  · intro hadd
    rw [addIf_records hadd h5, addIf_records hadd h4, addIf_records hadd h3,
      addIf_records hadd h2, addIf_records hadd h1, memRecords]
    simp [List.append_assoc]

theorem diskMetrics_ok {opts : Options} {env : Env} {d : DiskSample} {dims : List Dimension}
    {st st1 : St} (h : diskMetrics opts env d dims st = .ok st1) :
    st1.metadata = st.metadata ∧
    (AppendsOne env → st1.metricData.length = st.metricData.length + diskCount opts) ∧
    (AppendsRecord env → st1.metricData = st.metricData ++ diskRecords opts env d dims) := by
  unfold diskMetrics at h
  obtain ⟨s1, h1, h⟩ := (bind_ok_iff _ _ _).1 h
  obtain ⟨s2, h2, h⟩ := (bind_ok_iff _ _ _).1 h
  obtain ⟨s3, h3, h4⟩ := (bind_ok_iff _ _ _).1 h
  refine ⟨?_, ?_, ?_⟩
  · rw [(addIf_ok h4).1, (addIf_ok h3).1, (addIf_ok h2).1, (addIf_ok h1).1]
  · intro hlen
    rw [addIf_length hlen h4, addIf_length hlen h3,
      addIf_length hlen h2, addIf_length hlen h1, diskCount]
    omega
  · intro hadd
    rw [addIf_records hadd h4, addIf_records hadd h3,
      addIf_records hadd h2, addIf_records hadd h1, diskRecords]
    simp [List.append_assoc]

theorem appendAutoScaling_part (env : Env) (dims : List Dimension) (tr : List Event)
    (i r : String) :
    ∃ asg, appendAutoScaling dims (env.getAutoscalingGroup tr i r) = dims ++ asg ∧
      AsgPart env true asg := by
  unfold appendAutoScaling
  split
  · rename_i g h1 h2
    exact ⟨_, rfl, by simp, Or.inr ⟨tr, i, r, g, Prod.ext h1 h2, rfl⟩⟩
  · exact ⟨[], by simp, by simp, Or.inl rfl⟩

theorem memAutoScaling_ok {opts : Options} {env : Env} {mem : MemSample}
    {dims dims1 : List Dimension} {st st1 : St}
    (h : memAutoScaling opts env mem dims st = .ok (dims1, st1)) :
    st1.metadata = st.metadata ∧ st1.metricData = st.metricData ∧
    ∃ asg, dims1 = dims ++ asg ∧ AsgPart env (opts.IsAutoScaling && !opts.IsDryRun) asg := by
  unfold memAutoScaling at h
  split at h
  · rename_i hc
    simp only at h
    split at h
    · simp at h
    · simp only [Except.ok.injEq, Prod.mk.injEq] at h
      obtain ⟨h1, h2⟩ := h
      subst h2
      obtain ⟨asg, ha, hp⟩ := appendAutoScaling_part env dims
        st.trace (st.metadata.get "instanceId") (st.metadata.get "region")
      refine ⟨rfl, rfl, asg, by rw [← h1, ha], ?_⟩
      rw [hc]; exact hp
  · rename_i hc
    simp only [Except.ok.injEq, Prod.mk.injEq] at h
    obtain ⟨h1, h2⟩ := h
    subst h1; subst h2
    exact ⟨rfl, rfl, [], by simp, by simp, Or.inl rfl⟩

theorem diskAutoScaling_ok {opts : Options} {env : Env} {diskErr : GoError}
    {dims dims1 : List Dimension} {st st1 : St}
    (h : diskAutoScaling opts env diskErr dims st = .ok (dims1, st1)) :
    st1.metadata = st.metadata ∧ st1.metricData = st.metricData ∧
    ∃ asg, dims1 = dims ++ asg ∧ AsgPart env opts.IsAutoScaling asg := by
  unfold diskAutoScaling at h
  split at h
  · rename_i hc
    simp only at h
    split at h
    · simp at h
    · simp only [Except.ok.injEq, Prod.mk.injEq] at h
      obtain ⟨h1, h2⟩ := h
      subst h2
      obtain ⟨asg, ha, hp⟩ := appendAutoScaling_part env dims
        st.trace (st.metadata.get "instanceId") (st.metadata.get "region")
      refine ⟨rfl, rfl, asg, by rw [← h1, ha], ?_⟩
      rw [hc]; exact hp
  · rename_i hc
    simp only [Except.ok.injEq, Prod.mk.injEq] at h
    obtain ⟨h1, h2⟩ := h
    subst h1; subst h2
    exact ⟨rfl, rfl, [], by simp, by simp [hc], Or.inl rfl⟩

theorem lookup_assign_same (kvs : List (String × String)) (k v : String) :
    lookupEntry (assignEntry kvs k v) k = v := by
  induction kvs with
  | nil => simp [assignEntry, lookupEntry]
  | cons kv rest ih =>
    obtain ⟨k0, w⟩ := kv
    by_cases hk : k0 = k
    · simp [assignEntry, lookupEntry, hk]
    · simp [assignEntry, lookupEntry, hk, ih]

theorem lookup_assign_other (kvs : List (String × String)) (k v j : String) (hj : k ≠ j) :
    lookupEntry (assignEntry kvs k v) j = lookupEntry kvs j := by
  induction kvs with
  | nil => simp [assignEntry, lookupEntry, hj]
  | cons kv rest ih =>
    obtain ⟨k0, w⟩ := kv
    by_cases hk : k0 = k
    · subst hk; simp [assignEntry, lookupEntry, hj]
    · by_cases hj0 : k0 = j
      · subst hj0; simp [assignEntry, lookupEntry, hk]
      · simp [assignEntry, lookupEntry, hk, hj0, ih]

theorem GoMap.get_set_same {m m1 : GoMap} {k v : String} (h : m.set k v = some m1) :
    m1.get k = v := by
  cases m with
  | nilMap => simp [GoMap.set] at h
  | entries kvs =>
    simp only [GoMap.set, Option.some.injEq] at h
    subst h
    exact lookup_assign_same kvs k v

theorem GoMap.get_set_other {m m1 : GoMap} {k v j : String} (h : m.set k v = some m1)
    (hj : k ≠ j) : m1.get j = m.get j := by
  cases m with
  | nilMap => simp [GoMap.set] at h
  | entries kvs =>
    simp only [GoMap.set, Option.some.injEq] at h
    subst h
    exact lookup_assign_other kvs k v j hj

theorem diskStep_ok {opts : Options} {env : Env} {val : String} {st st1 : St}
    (h : diskStep opts env val st = .ok st1) :
    st.metadata.set "fileSystem" val = some st1.metadata ∧
    (AppendsOne env → st1.metricData.length = st.metricData.length + diskCount opts) ∧
    (AppendsRecord env → ∃ d dims, DiskDims opts env val dims ∧
      st1.metricData = st.metricData ++ diskRecords opts env d dims) := by
  unfold diskStep at h
  simp only at h
  split at h
  · simp at h
  · split at h
    · simp at h
    · rename_i m hm
      obtain ⟨ds, h1, h2⟩ := (bind_ok_iff _ _ _).1 h
      obtain ⟨dims1, s1⟩ := ds
      obtain ⟨ha, hb, asg, hasg, hpart⟩ := diskAutoScaling_ok h1
      obtain ⟨hc, hd, he⟩ := diskMetrics_ok h2
      simp only [St.log] at hm
      have hmeta : s1.metadata = m := by
        rw [ha]; unfold diskBaseDims; split <;> simp [St.log]
      have hdata : s1.metricData = st.metricData := by
        rw [hb]; unfold diskBaseDims; split <;> simp [St.log]
      refine ⟨?_, ?_, ?_⟩
      · rw [hc, hmeta]; exact hm
      · intro hlen; rw [hd hlen, hdata]
      · intro hadd
        refine ⟨env.DiskSpace st.trace val, dims1, ⟨m, asg, GoMap.get_set_same hm, ?_, hpart⟩, ?_⟩
        · rw [hasg]; unfold diskBaseDims
          cases opts.IsAggregated <;> simp [St.log]
        · rw [he hadd, hdata]

theorem diskLoop_ok {opts : Options} {env : Env} (paths : List String) {st st1 : St}
    (h : diskLoop opts env paths st = .ok st1) :
    st1.metadata.get "region" = st.metadata.get "region" ∧
    (AppendsOne env →
      st1.metricData.length = st.metricData.length + diskCount opts * paths.length) ∧
    (AppendsRecord env → ∃ ds : List (DiskSample × List Dimension),
      List.Forall₂ (fun p s => DiskDims opts env p s.2) paths ds ∧
      st1.metricData = st.metricData ++ ds.flatMap (fun s => diskRecords opts env s.1 s.2)) := by
  induction paths generalizing st with
  | nil =>
    simp only [diskLoop, Except.ok.injEq] at h
    subst h
    exact ⟨rfl, fun _ => by simp, fun _ => ⟨[], List.Forall₂.nil, by simp⟩⟩
  | cons p ps ih =>
    simp only [diskLoop] at h
    obtain ⟨s1, h1, h2⟩ := (bind_ok_iff _ _ _).1 h
    obtain ⟨hm, hlen1, hrec1⟩ := diskStep_ok h1
    obtain ⟨hr, hlen2, hrec2⟩ := ih h2
    refine ⟨?_, ?_, ?_⟩
    · rw [hr]; exact GoMap.get_set_other hm (by decide)
    · intro hlen
      rw [hlen2 hlen, hlen1 hlen, List.length_cons, Nat.mul_succ]; omega
    · intro hadd
      obtain ⟨d, dims, hd, hdata1⟩ := hrec1 hadd
      obtain ⟨ds, hall, hdata2⟩ := hrec2 hadd
      refine ⟨(d, dims) :: ds, List.Forall₂.cons hd hall, ?_⟩
      rw [hdata2, hdata1]; simp [List.append_assoc]

theorem loadMetadata_ok {opts : Options} {env : Env} {st : St}
    (h : loadMetadata opts env = .ok st) :
    st.metadata = initialIdentity opts env ∧ st.metricData = [] ∧
    st.trace = if opts.IsDryRun then [] else [Event.getInstanceMetadata] := by
  unfold loadMetadata at h
  unfold initialIdentity
  cases hd : opts.IsDryRun
  · simp only [hd, Bool.not_false, if_true] at h
    split at h
    · simp at h
    · simp only [Except.ok.injEq] at h
      subst h; simp
  · simp only [hd, Bool.not_true] at h
    simp only [Bool.false_eq_true, if_false, Except.ok.injEq] at h
    subst h; simp

theorem memBaseDims_state (opts : Options) (env : Env) (st : St) :
    (memBaseDims opts env st).2.metadata = st.metadata ∧
    (memBaseDims opts env st).2.metricData = st.metricData ∧
    (memBaseDims opts env st).1 =
      if !opts.IsAggregated && !opts.IsDryRun then env.getDimensions st.metadata else [] := by
  unfold memBaseDims
  split <;> simp [St.log]

theorem collect_ok {opts : Options} {env : Env} {st : St}
    (h : collect opts env = .ok st) :
    st.metadata.get "region" = (initialIdentity opts env).get "region" ∧
    (AppendsOne env → st.metricData.length =
      memCount opts + diskCount opts * (stringsSplit opts.DiskPaths).length) ∧
    (AppendsRecord env → ∃ (mdims : List Dimension) (ds : List (DiskSample × List Dimension)),
      MemDims opts env mdims ∧
      List.Forall₂ (fun p s => DiskDims opts env p s.2) (stringsSplit opts.DiskPaths) ds ∧
      st.metricData = memRecords opts env.memoryUsage mdims ++
        ds.flatMap (fun s => diskRecords opts env s.1 s.2)) := by
  unfold collect at h
  obtain ⟨s2, h, h3⟩ := (bind_ok_iff _ _ _).1 h
  unfold memorySection at h
  obtain ⟨_, _, h⟩ := (bind_ok_iff _ _ _).1 h
  obtain ⟨st0, h0, h⟩ := (bind_ok_iff _ _ _).1 h
  simp only at h
  obtain ⟨ds, h1, h2⟩ := (bind_ok_iff _ _ _).1 h
  obtain ⟨mdims, s1⟩ := ds
  obtain ⟨hmeta0, hdata0, _⟩ := loadMetadata_ok h0
  obtain ⟨hb1, hb2, hb3⟩ := memBaseDims_state opts env (st0.log .memoryUsage)
  obtain ⟨ha1, ha2, asg, hasg, hpart⟩ := memAutoScaling_ok h1
  obtain ⟨hm1, hm2, hm3⟩ := memMetrics_ok h2
  obtain ⟨hl1, hl2, hl3⟩ := diskLoop_ok _ h3
  have hmeta : s2.metadata = initialIdentity opts env := by
    rw [hm1]; simp only; rw [ha1, hb1]; simpa [St.log] using hmeta0
  have hdata : s1.metricData = [] := by
    rw [ha2, hb2]; simpa [St.log] using hdata0
  refine ⟨?_, ?_, ?_⟩
  · rw [hl1, hmeta]
  · intro hlen
    rw [hl2 hlen, hm2 hlen]; simp only; rw [hdata]; simp
  · intro hadd
    obtain ⟨dss, hall, hd⟩ := hl3 hadd
    refine ⟨mdims, dss, ⟨asg, ?_, hpart⟩, hall, ?_⟩
    · rw [hasg, hb3]; simp only [St.log]; rw [hmeta0]
    · rw [hd, hm3 hadd]; simp only; rw [hdata]; simp

/-! ## Properties of the trace, however the run ends -/

theorem traceOf_bind_inv {α β : Type} {I : List Event → Prop} {t : α → List Event}
    {u : β → List Event} {x : Except Halt α} {f : α → Except Halt β}
    (hx : I (traceOf t x)) (hf : ∀ a, x = .ok a → I (t a) → I (traceOf u (f a))) :
    I (traceOf u (x >>= f)) := by
  cases x with
  | error h => exact hx
  | ok a => exact hf a rfl hx

theorem addIf_inv {I : List Event → Prop}
    (hI : ∀ tr e, Event.isAddOrGroup e = true → I tr → I (tr ++ [e]))
    (env : Env) (en : Bool) (n u : String) (v : Float64) (d : List Dimension) (msg : String)
    {st : St} (h : I st.trace) : I (traceOf St.trace (addIf env en n u v d msg st)) := by
  unfold addIf
  cases en
  · simpa [traceOf] using h
  · simp only [if_true]
    split <;> exact hI _ _ rfl h

theorem memMetrics_inv {I : List Event → Prop}
    (hI : ∀ tr e, Event.isAddOrGroup e = true → I tr → I (tr ++ [e]))
    (opts : Options) (env : Env) (mem : MemSample) (dims : List Dimension)
    {st : St} (h : I st.trace) : I (traceOf St.trace (memMetrics opts env mem dims st)) := by
  unfold memMetrics
  refine traceOf_bind_inv (t := St.trace) (addIf_inv hI _ _ _ _ _ _ _ h) fun s1 _ h1 => ?_
  refine traceOf_bind_inv (t := St.trace) (addIf_inv hI _ _ _ _ _ _ _ h1) fun s2 _ h2 => ?_
  refine traceOf_bind_inv (t := St.trace) (addIf_inv hI _ _ _ _ _ _ _ h2) fun s3 _ h3 => ?_
  refine traceOf_bind_inv (t := St.trace) (addIf_inv hI _ _ _ _ _ _ _ h3) fun s4 _ h4 => ?_
  exact addIf_inv hI _ _ _ _ _ _ _ h4

theorem diskMetrics_inv {I : List Event → Prop}
    (hI : ∀ tr e, Event.isAddOrGroup e = true → I tr → I (tr ++ [e]))
    (opts : Options) (env : Env) (d : DiskSample) (dims : List Dimension)
    {st : St} (h : I st.trace) : I (traceOf St.trace (diskMetrics opts env d dims st)) := by
  unfold diskMetrics
  refine traceOf_bind_inv (t := St.trace) (addIf_inv hI _ _ _ _ _ _ _ h) fun s1 _ h1 => ?_
  refine traceOf_bind_inv (t := St.trace) (addIf_inv hI _ _ _ _ _ _ _ h1) fun s2 _ h2 => ?_
  refine traceOf_bind_inv (t := St.trace) (addIf_inv hI _ _ _ _ _ _ _ h2) fun s3 _ h3 => ?_
  exact addIf_inv hI _ _ _ _ _ _ _ h3

theorem memAutoScaling_inv {I : List Event → Prop}
    (hI : ∀ tr e, Event.isAddOrGroup e = true → I tr → I (tr ++ [e]))
    (opts : Options) (env : Env) (mem : MemSample) (dims : List Dimension)
    {st : St} (h : I st.trace) :
    I (traceOf (fun ds : List Dimension × St => ds.2.trace)
      (memAutoScaling opts env mem dims st)) := by
  unfold memAutoScaling
  split
  · simp only
    split <;> exact hI _ _ rfl h
  · exact h

theorem diskAutoScaling_inv {I : List Event → Prop}
    (hI : ∀ tr e, Event.isAddOrGroup e = true → I tr → I (tr ++ [e]))
    (opts : Options) (env : Env) (diskErr : GoError) (dims : List Dimension)
    {st : St} (h : I st.trace) :
    I (traceOf (fun ds : List Dimension × St => ds.2.trace)
      (diskAutoScaling opts env diskErr dims st)) := by
  unfold diskAutoScaling
  split
  · simp only
    split <;> exact hI _ _ rfl h
  · exact h

theorem isAssembly_of_isAddOrGroup {e : Event} (h : Event.isAddOrGroup e = true) :
    Event.isAssembly e = true := by
  cases e <;> simp_all [Event.isAddOrGroup, Event.isAssembly]

theorem diskStep_inv {I : List Event → Prop}
    (hI : ∀ tr e, Event.isAssembly e = true → I tr → I (tr ++ [e]))
    (opts : Options) (env : Env) (val : String) {st : St} (h : I st.trace) :
    I (traceOf St.trace (diskStep opts env val st)) := by
  have hA : ∀ tr e, Event.isAddOrGroup e = true → I tr → I (tr ++ [e]) :=
    fun tr e he => hI tr e (isAssembly_of_isAddOrGroup he)
  have h1 : I (st.trace ++ [Event.DiskSpace val]) := hI _ _ rfl h
  unfold diskStep
  simp only
  split
  · exact h1
  · split
    · exact h1
    · rename_i m hm
      have h2 : I (diskBaseDims opts env
          { trace := (st.log (.DiskSpace val)).trace, metadata := m,
            metricData := (st.log (.DiskSpace val)).metricData }).2.trace := by
        unfold diskBaseDims
        split
        · exact hI _ _ rfl h1
        · exact h1
      refine traceOf_bind_inv (diskAutoScaling_inv hA _ _ _ _ h2) fun ds _ h3 => ?_
      exact diskMetrics_inv hA _ _ _ _ h3

theorem diskLoop_inv {I : List Event → Prop}
    (hI : ∀ tr e, Event.isAssembly e = true → I tr → I (tr ++ [e]))
    (opts : Options) (env : Env) (paths : List String) {st : St} (h : I st.trace) :
    I (traceOf St.trace (diskLoop opts env paths st)) := by
  induction paths generalizing st with
  | nil => exact h
  | cons p ps ih =>
    simp only [diskLoop]
    exact traceOf_bind_inv (t := St.trace) (diskStep_inv hI _ _ _ h) fun s1 _ h1 => ih h1

theorem collect_inv {I : List Event → Prop}
    (hI : ∀ tr e, Event.isAssembly e = true → I tr → I (tr ++ [e]))
    (opts : Options) (env : Env) (h0 : I [])
    (h1 : opts.IsDryRun = false → I [Event.getInstanceMetadata]) :
    I (traceOf St.trace (collect opts env)) := by
  have hA : ∀ tr e, Event.isAddOrGroup e = true → I tr → I (tr ++ [e]) :=
    fun tr e he => hI tr e (isAssembly_of_isAddOrGroup he)
  unfold collect
  refine traceOf_bind_inv (t := St.trace) ?_ fun s2 _ h4 => diskLoop_inv hI _ _ _ h4
  unfold memorySection
  have hp : I (traceOf (fun _ : Unit => ([] : List Event)) (parseArgs env)) := by
    unfold parseArgs
    split <;> exact h0
  refine traceOf_bind_inv hp fun _ _ _ => ?_
  have hl : I (traceOf St.trace (loadMetadata opts env)) := by
    unfold loadMetadata
    cases hd : opts.IsDryRun
    · simp only [Bool.not_false, if_true]
      split <;> exact h1 hd
    · simpa [traceOf] using h0
  refine traceOf_bind_inv hl fun st0 _ hs0 => ?_
  simp only
  have hm : I (memBaseDims opts env (st0.log .memoryUsage)).2.trace := by
    have : I (st0.log .memoryUsage).trace := hI _ _ rfl hs0
    unfold memBaseDims
    split
    · exact hI _ _ rfl this
    · exact this
  refine traceOf_bind_inv (memAutoScaling_inv hA _ _ _ _ hm) fun ds _ h3 => ?_
  exact memMetrics_inv hA _ _ _ _ h3

theorem dimCalls_append (a b : List Event) : dimCalls (a ++ b) = dimCalls a ++ dimCalls b := by
  induction a with
  | nil => rfl
  | cons e es ih => cases e <;> simp [dimCalls, ih]

theorem dimCalls_addOrGroup (c : List GoMap) (tr : List Event) (e : Event)
    (he : Event.isAddOrGroup e = true) (h : dimCalls tr = c) : dimCalls (tr ++ [e]) = c := by
  rw [dimCalls_append, h]
  cases e <;> simp_all [Event.isAddOrGroup, dimCalls]

theorem diskStep_dimCalls (opts : Options) (env : Env) (val : String) (st : St) :
    dimCalls (traceOf St.trace (diskStep opts env val st)) =
      dimCalls st.trace ++ stepDims opts env val st := by
  unfold diskStep stepDims
  simp only
  cases hE : (env.DiskSpace st.trace val).err with
  | some e => simp [traceOf, St.log, dimCalls_append, dimCalls]
  | none =>
    simp only [St.log]
    cases hS : st.metadata.set "fileSystem" val with
    | none => simp [traceOf, dimCalls_append, dimCalls]
    | some m =>
      simp only
      have h2 : dimCalls (diskBaseDims opts env
          { trace := st.trace ++ [.DiskSpace val], metadata := m,
            metricData := st.metricData }).2.trace =
          dimCalls st.trace ++ (if opts.IsAggregated then [] else [m]) := by
        unfold diskBaseDims
        cases opts.IsAggregated <;> simp [St.log, dimCalls_append, dimCalls]
      refine traceOf_bind_inv (I := fun tr => dimCalls tr = _)
        (diskAutoScaling_inv (I := fun tr => dimCalls tr = _) (dimCalls_addOrGroup _)
          _ _ _ _ h2) fun ds _ h3 => ?_
      exact diskMetrics_inv (I := fun tr => dimCalls tr = _) (dimCalls_addOrGroup _) _ _ _ _ h3

theorem stepDims_fileSystem (opts : Options) (env : Env) (val : String) (st : St) :
    ∀ m ∈ stepDims opts env val st, m.get "fileSystem" = val := by
  intro m hm
  unfold stepDims at hm
  split at hm
  · rename_i m1 _ hS
    split at hm
    · simp at hm
    · simp only [List.mem_singleton] at hm
      subst hm
      exact GoMap.get_set_same hS
  · simp at hm

theorem stepDims_aggregated (opts : Options) (env : Env) (val : String) (st : St)
    (h : opts.IsAggregated = true) : stepDims opts env val st = [] := by
  unfold stepDims
  split <;> simp [h]

theorem stepDims_length (opts : Options) (env : Env) (val : String) (st : St) :
    (stepDims opts env val st).length ≤ 1 := by
  unfold stepDims
  split
  · split <;> simp
  · simp

theorem diskStep_ok_err {opts : Options} {env : Env} {val : String} {st st1 : St}
    (h : diskStep opts env val st = .ok st1) : (env.DiskSpace st.trace val).err = none := by
  unfold diskStep at h
  simp only at h
  split at h
  · simp at h
  · assumption

theorem stepDims_ok {opts : Options} {env : Env} {val : String} {st st1 : St}
    (h : diskStep opts env val st = .ok st1) (ha : opts.IsAggregated = false) :
    stepDims opts env val st = [st1.metadata] := by
  unfold stepDims
  rw [diskStep_ok_err h, (diskStep_ok h).1]
  simp [ha]

theorem diskLoop_dimCalls (opts : Options) (env : Env) (paths : List String) (st : St) :
    dimCalls (traceOf St.trace (diskLoop opts env paths st)) =
      dimCalls st.trace ++ loopDims opts env paths st := by
  induction paths generalizing st with
  | nil => simp [diskLoop, loopDims, traceOf]
  | cons p ps ih =>
    simp only [diskLoop, loopDims]
    have hs := diskStep_dimCalls opts env p st
    cases hr : diskStep opts env p st with
    | error h => rw [hr] at hs; simpa [bind, Except.bind, traceOf] using hs
    | ok s1 =>
      rw [hr] at hs
      simp only [traceOf] at hs
      have := ih s1
      simp only [bind, Except.bind]
      rw [this, hs, List.append_assoc]

theorem loopDims_spec (opts : Options) (env : Env) (paths : List String) (st : St) :
    (opts.IsAggregated = true → loopDims opts env paths st = []) ∧
    (loopDims opts env paths st).length ≤ paths.length ∧
    (∀ (i : Nat) (m : GoMap), (loopDims opts env paths st)[i]? = some m →
      paths[i]? = some (m.get "fileSystem")) ∧
    (∀ st1, diskLoop opts env paths st = .ok st1 → opts.IsAggregated = false →
      (loopDims opts env paths st).length = paths.length) := by
  induction paths generalizing st with
  | nil => simp [loopDims]
  | cons p ps ih =>
    simp only [loopDims, diskLoop]
    cases hr : diskStep opts env p st with
    | error h =>
      simp only
      refine ⟨stepDims_aggregated opts env p st, ?_, ?_, ?_⟩
      · have := stepDims_length opts env p st
        simp only [List.length_cons]; omega
      · intro i m hi
        have hlen := stepDims_length opts env p st
        have hmem : m ∈ stepDims opts env p st := List.getElem?_mem hi
        have hi0 : i = 0 := by
          obtain ⟨hlt, _⟩ := List.getElem?_eq_some_iff.1 hi
          omega
        subst hi0
        simp [stepDims_fileSystem opts env p st m hmem]
      · intro st1 h1
        simp [bind, Except.bind] at h1
    | ok s1 =>
      obtain ⟨ih1, ih2, ih3, ih4⟩ := ih s1
      simp only
      refine ⟨?_, ?_, ?_, ?_⟩
      · intro ha
        rw [stepDims_aggregated opts env p st ha, ih1 ha]; rfl
      · have := stepDims_length opts env p st
        simp only [List.length_append, List.length_cons]; omega
      · intro i m hi
        cases ha : opts.IsAggregated
        · rw [stepDims_ok hr ha] at hi
          cases i with
          | zero =>
            simp only [List.singleton_append, List.getElem?_cons_zero, Option.some.injEq] at hi
            subst hi
            simp [GoMap.get_set_same (diskStep_ok hr).1]
          | succ j =>
            simp only [List.singleton_append, List.getElem?_cons_succ] at hi
            simpa using ih3 j m hi
        · rw [stepDims_aggregated opts env p st ha, ih1 ha] at hi
          simp at hi
      · intro st1 h1 ha
        simp only [bind, Except.bind] at h1
        rw [stepDims_ok hr ha]
        simp [ih4 st1 h1 ha]

/-! ## The claims -/

theorem assembledBatch_eq_some {opts : Options} {env : Env} {batch : List MetricDatum}
    (h : assembledBatch opts env = some batch) :
    ∃ st, collect opts env = .ok st ∧ st.metricData = batch := by
  unfold assembledBatch at h
  split at h
  · rename_i st hst
    exact ⟨st, hst, by simpa using h⟩
  · simp at h

theorem stringsSplit_scenario : stringsSplit "/,/data" = ["/", "/data"] := by decide

theorem kindsOf_memRecords (opts : Options) (mem : MemSample) (dims : List Dimension) :
    kindsOf (memRecords opts mem dims) = memKinds opts := by
  unfold kindsOf memRecords memKinds sel
  cases opts.IsMemUtil <;> cases opts.IsMemUsed <;> cases opts.IsMemAvail <;>
    cases opts.IsSwapUsed <;> cases opts.IsSwapUtil <;> rfl

theorem kindsOf_diskRecords (opts : Options) (env : Env) (d : DiskSample)
    (dims : List Dimension) : kindsOf (diskRecords opts env d dims) = diskKinds opts := by
  unfold kindsOf diskRecords diskKinds sel
  cases opts.IsDiskSpaceUtil <;> cases opts.IsDiskSpaceUsed <;> cases opts.IsDiskSpaceAvail <;>
    cases opts.IsDiskInodeUtil <;> rfl

theorem kindsOf_blocks (opts : Options) (env : Env) (paths : List String)
    (ds : List (DiskSample × List Dimension))
    (h : List.Forall₂ (fun p s => DiskDims opts env p s.2) paths ds) :
    kindsOf (ds.flatMap (fun s => diskRecords opts env s.1 s.2)) =
      paths.flatMap (fun _ => diskKinds opts) := by
  induction h with
  | nil => rfl
  | cons _ _ ih =>
    simp only [List.flatMap_cons, kindsOf, List.map_append] at ih ⊢
    rw [ih]
    congr 1
    exact kindsOf_diskRecords opts env _ _

/-- C1: when the run reaches submission and `addMetric` appends exactly one
record per call, the assembled batch has (number of enabled toggles among
mem-util, mem-used, mem-avail, swap-util, swap-used) + (number of enabled
toggles among disk-space-util, disk-space-used, disk-space-avail,
disk-inode-util) * (number of configured paths) records. -/
theorem batch_length (opts : Options) (env : Env) (batch : List MetricDatum)
    (hadd : ∀ n u v d b, (env.addMetric n u v d b).1.length = b.length + 1)
    (h : assembledBatch opts env = some batch) :
    batch.length =
      (opts.IsMemUtil.toNat + opts.IsMemUsed.toNat + opts.IsMemAvail.toNat +
          opts.IsSwapUtil.toNat + opts.IsSwapUsed.toNat) +
        (opts.IsDiskSpaceUtil.toNat + opts.IsDiskSpaceUsed.toNat +
          opts.IsDiskSpaceAvail.toNat + opts.IsDiskInodeUtil.toNat) *
          (stringsSplit opts.DiskPaths).length := by
  obtain ⟨st, hst, hb⟩ := assembledBatch_eq_some h
  rw [← hb]
  exact (collect_ok hst).2.1 hadd

/-- Witness of C1: the live sample run, 3 + 2 * 2 = 7 records. -/
theorem batch_length_witness :
    (∀ n u v d b, (sampleEnv.addMetric n u v d b).1.length = b.length + 1) ∧
    assembledBatch liveOpts sampleEnv = some liveState.metricData ∧
    liveState.metricData.length = 7 :=
  ⟨fun _ _ _ _ b => by simp [sampleEnv], by rfl,
    batch_length liveOpts sampleEnv liveState.metricData
      (fun _ _ _ _ b => by simp [sampleEnv]) (by rfl)⟩

/-- C2, counterexample: with both swap toggles on, the SwapUsed record comes
before the SwapUtil record, while the toggle order puts swap-util first. -/
theorem toggle_order_counterexample :
    (assembledBatch swapOpts sampleEnv).map kindsOf =
      some [("SwapUsed", "Bytes"), ("SwapUtil", "Percent")] ∧
    toggleOrderMemKinds swapOpts ++
        (stringsSplit swapOpts.DiskPaths).flatMap (fun _ => diskKinds swapOpts) =
      [("SwapUtil", "Percent"), ("SwapUsed", "Bytes")] ∧
    (assembledBatch swapOpts sampleEnv).map kindsOf ≠
      some (toggleOrderMemKinds swapOpts ++
        (stringsSplit swapOpts.DiskPaths).flatMap (fun _ => diskKinds swapOpts)) := by
  refine ⟨?_, ?_, ?_⟩ <;> decide

/-- C2, amended: when `addMetric` appends the record it is given, the batch
holds the enabled ones of MemoryUtilization, MemoryUsed, MemoryAvail, SwapUsed,
SwapUtil in that order (the order of lines 82-112: swap-used before swap-util),
followed, for each configured path in list order, by the enabled ones of
DiskUtilization, DiskUsed, DiskAvail, DiskInodesUtilization in that order, the
block of a path carrying the dimensions built for that path. -/
theorem batch_order (opts : Options) (env : Env) (batch : List MetricDatum)
    (hadd : ∀ n u v d b, (env.addMetric n u v d b).1 = b ++ [⟨n, u, v, d⟩])
    (h : assembledBatch opts env = some batch) :
    kindsOf batch =
      memKinds opts ++ (stringsSplit opts.DiskPaths).flatMap (fun _ => diskKinds opts) ∧
    ∃ (mdims : List Dimension) (ds : List (DiskSample × List Dimension)),
      List.Forall₂ (fun p s => DiskDims opts env p s.2) (stringsSplit opts.DiskPaths) ds ∧
      batch = memRecords opts env.memoryUsage mdims ++
        ds.flatMap (fun s => diskRecords opts env s.1 s.2) := by
  obtain ⟨st, hst, hb⟩ := assembledBatch_eq_some h
  obtain ⟨mdims, ds, _, hall, hdata⟩ := (collect_ok hst).2.2 hadd
  rw [hb] at hdata
  refine ⟨?_, mdims, ds, hall, hdata⟩
  rw [hdata]
  have := kindsOf_blocks opts env _ ds hall
  simp only [kindsOf, List.map_append] at this ⊢
  rw [this]
  congr 1
  exact kindsOf_memRecords opts _ _

/-- Witness of C2 (amended): the live sample run. -/
theorem batch_order_witness :
    (∀ n u v d b, (sampleEnv.addMetric n u v d b).1 = b ++ [⟨n, u, v, d⟩]) ∧
    assembledBatch liveOpts sampleEnv = some liveState.metricData ∧
    kindsOf liveState.metricData =
      [("MemoryUtilization", "Percent"), ("SwapUsed", "Bytes"), ("SwapUtil", "Percent"),
       ("DiskUsed", "Bytes"), ("DiskInodesUtilization", "Percent"),
       ("DiskUsed", "Bytes"), ("DiskInodesUtilization", "Percent")] :=
  ⟨fun _ _ _ _ _ => rfl, by rfl,
    (batch_order liveOpts sampleEnv liveState.metricData (fun _ _ _ _ _ => rfl) (by rfl)).1⟩

theorem mem_sel {en : Bool} {d r : MetricDatum} (h : r ∈ sel en d) : r = d := by
  unfold sel at h
  cases en <;> simp_all

theorem mem_memRecords {opts : Options} {mem : MemSample} {dims : List Dimension}
    {r : MetricDatum} (h : r ∈ memRecords opts mem dims) :
    r.dimensions = dims ∧ r.metricName ∈ memMetricNames := by
  unfold memRecords at h
  simp only [List.mem_append] at h
  rcases h with (((h | h) | h) | h) | h <;>
    (have hd := mem_sel h; subst hd; exact ⟨rfl, by simp [memMetricNames]⟩)

theorem mem_diskRecords {opts : Options} {env : Env} {d : DiskSample} {dims : List Dimension}
    {r : MetricDatum} (h : r ∈ diskRecords opts env d dims) :
    r.dimensions = dims ∧ r.metricName ∈ diskMetricNames := by
  unfold diskRecords at h
  simp only [List.mem_append] at h
  rcases h with ((h | h) | h) | h <;>
    (have hd := mem_sel h; subst hd; exact ⟨rfl, by simp [diskMetricNames]⟩)

theorem forall₂_right {α β : Type} {R : α → β → Prop} {l1 : List α} {l2 : List β}
    (h : List.Forall₂ R l1 l2) : ∀ b ∈ l2, ∃ a ∈ l1, R a b := by
  induction h with
  | nil => simp
  | cons hab _ ih =>
    intro b hb
    rcases List.mem_cons.1 hb with hb | hb
    · subst hb; exact ⟨_, List.mem_cons_self _ _, hab⟩
    · obtain ⟨a, ha, hr⟩ := ih b hb
      exact ⟨a, List.mem_cons_of_mem _ ha, hr⟩

theorem disjoint_names {n : String} (hm : n ∈ memMetricNames) (hd : n ∈ diskMetricNames) :
    False := by
  simp only [memMetricNames, diskMetricNames, List.mem_cons, List.mem_singleton,
    List.not_mem_nil, or_false] at hm hd
  rcases hm with h | h | h | h | h <;> subst h <;> simp at hd

/-- C3, counterexample: a record of a dry run that is not aggregated has an
empty dimension set although `getDimensions` never returns one, and a record
of an aggregated run with auto-scaling has a non-empty dimension set. -/
theorem record_dimensions_counterexample :
    (∀ m, sampleEnv.getDimensions m ≠ []) ∧
    (scenarioOpts.IsAggregated = false ∧
      assembledBatch scenarioOpts sampleEnv = some
        [⟨"MemoryUtilization", "Percent", 11, []⟩,
         ⟨"DiskUsed", "Bytes", 22,
           [⟨"InstanceId", ""⟩, ⟨"ImageId", "i-fakefakefake"⟩, ⟨"InstanceType", "r3.fake"⟩,
            ⟨"FileSystem", "/"⟩]⟩,
         ⟨"DiskUsed", "Bytes", 22,
           [⟨"InstanceId", ""⟩, ⟨"ImageId", "i-fakefakefake"⟩, ⟨"InstanceType", "r3.fake"⟩,
            ⟨"FileSystem", "/data"⟩]⟩]) ∧
    (aggregatedGroupOpts.IsAggregated = true ∧
      assembledBatch aggregatedGroupOpts sampleEnv = some
        [⟨"MemoryUtilization", "Percent", 11, [⟨"AutoScalingGroupName", "web"⟩]⟩]) := by
  refine ⟨fun m => by simp [sampleEnv, sampleDimensions], ⟨rfl, by decide⟩, ⟨rfl, by decide⟩⟩

/-- C3, amended: for every record of the assembled batch, (a) if aggregated is
true the dimension set is empty or is the single AutoScalingGroupName
dimension of a group the resolver returned, and it is empty when auto-scaling
is off; (b) if aggregated is false the dimension set of every disk record is
non-empty, and so is that of every record of a run that is not a dry run;
(c) in a dry run the memory and swap records have an empty dimension set.
`getDimensions` is assumed to return a non-empty set for every identity map. -/
theorem record_dimensions (opts : Options) (env : Env) (batch : List MetricDatum)
    (hadd : ∀ n u v d b, (env.addMetric n u v d b).1 = b ++ [⟨n, u, v, d⟩])
    (hdim : ∀ m, env.getDimensions m ≠ [])
    (h : assembledBatch opts env = some batch) (r : MetricDatum) (hr : r ∈ batch) :
    (opts.IsAggregated = true →
      (r.dimensions = [] ∨ ∃ tr i rg g, env.getAutoscalingGroup tr i rg = (some g, none) ∧
        r.dimensions = [⟨"AutoScalingGroupName", g⟩]) ∧
      (opts.IsAutoScaling = false → r.dimensions = [])) ∧
    (opts.IsAggregated = false → r.metricName ∈ diskMetricNames → r.dimensions ≠ []) ∧
    (opts.IsAggregated = false → opts.IsDryRun = false → r.dimensions ≠ []) ∧
    (opts.IsDryRun = true → r.metricName ∈ memMetricNames → r.dimensions = []) := by
  obtain ⟨st, hst, hb⟩ := assembledBatch_eq_some h
  obtain ⟨mdims, ds, ⟨masg, hmdims, hmpart⟩, hall, hdata⟩ := (collect_ok hst).2.2 hadd
  rw [hb] at hdata
  rw [hdata, List.mem_append] at hr
  rcases hr with hr | hr
  · obtain ⟨hdims, hname⟩ := mem_memRecords hr
    rw [hdims, hmdims]
    refine ⟨?_, ?_, ?_, ?_⟩
    · intro ha
      simp only [ha, Bool.not_true, Bool.false_and, Bool.false_eq_true, if_false,
        List.nil_append]
      refine ⟨hmpart.2, fun hs => hmpart.1 (by simp [hs])⟩
    · intro _ hd
      exact (disjoint_names hname hd).elim
    · intro ha hd
      simp [ha, hd, hdim]
    · intro hd _
      have : masg = [] := hmpart.1 (by simp [hd])
      simp [hd, this]
  · obtain ⟨s, hs, hrs⟩ := List.mem_flatMap.1 hr
    obtain ⟨hdims, hname⟩ := mem_diskRecords hrs
    obtain ⟨p, _, m, asg, _, hsd, hpart⟩ := forall₂_right hall s hs
    rw [hdims, hsd]
    refine ⟨?_, ?_, ?_, ?_⟩
    · intro ha
      simp only [ha, if_true, List.nil_append]
      exact ⟨hpart.2, fun hs => hpart.1 hs⟩
    · intro ha _
      simp [ha, hdim]
    · intro ha _
      simp [ha, hdim]
    · intro _ hm
      exact (disjoint_names hm hname).elim

/-- Witness of C3 (amended): the first record of the live sample run. -/
theorem record_dimensions_witness :
    (∀ n u v d b, (sampleEnv.addMetric n u v d b).1 = b ++ [⟨n, u, v, d⟩]) ∧
    (∀ m, sampleEnv.getDimensions m ≠ []) ∧
    assembledBatch liveOpts sampleEnv = some liveState.metricData ∧
    liveFirstRecord ∈ liveState.metricData ∧ liveFirstRecord.dimensions ≠ [] :=
  ⟨fun _ _ _ _ _ => rfl, fun m => by simp [sampleEnv, sampleDimensions], by rfl, by decide,
    (record_dimensions liveOpts sampleEnv liveState.metricData (fun _ _ _ _ _ => rfl)
      (fun m => by simp [sampleEnv, sampleDimensions]) (by rfl) liveFirstRecord
      (by decide)).2.2.1 rfl rfl⟩

theorem main_ok {opts : Options} {env : Env} {st : St} (h : collect opts env = .ok st) :
    main opts env = submit opts env st := by
  unfold main
  rw [h]

theorem main_trace_dry (opts : Options) (env : Env) (hdry : opts.IsDryRun = true) :
    ∃ extra, (main opts env).trace = traceOf St.trace (collect opts env) ++ extra ∧
      ∀ e ∈ extra, ∃ s, e = Event.printf s := by
  unfold main
  cases hc : collect opts env with
  | error h => exact ⟨[], by simp [traceOf], by simp⟩
  | ok st =>
    refine ⟨[Event.printf "Dry run. metric data that would be sent:\n"] ++
      st.metricData.map (fun datum => Event.printf (env.GoString datum)), ?_, ?_⟩
    · simp [submit, hdry, traceOf]
    · intro e he
      simp only [List.singleton_append, List.mem_cons, List.mem_map] at he
      rcases he with he | ⟨d, _, he⟩
      · exact ⟨_, he⟩
      · exact ⟨_, he.symm⟩

theorem dimCalls_map_printf (l : List MetricDatum) (f : MetricDatum → String) :
    dimCalls (l.map (fun datum => Event.printf (f datum))) = [] := by
  induction l with
  | nil => rfl
  | cons a l ih => simpa [dimCalls] using ih

theorem main_dimCalls (opts : Options) (env : Env) :
    dimCalls (main opts env).trace = dimCalls (traceOf St.trace (collect opts env)) := by
  unfold main
  cases hc : collect opts env with
  | error h => rfl
  | ok st =>
    simp only [traceOf, submit]
    cases opts.IsDryRun
    · simp only [Bool.false_eq_true, if_false]
      split <;> simp [dimCalls_append, dimCalls]
    · simp [dimCalls_append, dimCalls, dimCalls_map_printf]

theorem memorySection_dimCalls (opts : Options) (env : Env) :
    dimCalls (traceOf St.trace (memorySection opts env)) = [] ∨
    dimCalls (traceOf St.trace (memorySection opts env)) = [initialIdentity opts env] := by
  have hI : ∀ tr e, Event.isAddOrGroup e = true →
      (dimCalls tr = [] ∨ dimCalls tr = [initialIdentity opts env]) →
      (dimCalls (tr ++ [e]) = [] ∨ dimCalls (tr ++ [e]) = [initialIdentity opts env]) := by
    intro tr e he h
    rcases h with h | h
    · exact Or.inl (dimCalls_addOrGroup _ tr e he h)
    · exact Or.inr (dimCalls_addOrGroup _ tr e he h)
  unfold memorySection
  refine traceOf_bind_inv (I := fun tr => dimCalls tr = [] ∨ dimCalls tr = [initialIdentity opts env])
    (t := fun _ : Unit => ([] : List Event)) ?_ fun _ _ _ => ?_
  · unfold parseArgs
    split <;> exact Or.inl rfl
  refine traceOf_bind_inv (I := fun tr => dimCalls tr = [] ∨ dimCalls tr = [initialIdentity opts env])
    (t := St.trace) ?_ fun st0 h0 _ => ?_
  · unfold loadMetadata
    split
    · split <;> exact Or.inl rfl
    · exact Or.inl rfl
  obtain ⟨hmeta, _, htr⟩ := loadMetadata_ok h0
  have hm : dimCalls (memBaseDims opts env (st0.log .memoryUsage)).2.trace = [] ∨
      dimCalls (memBaseDims opts env (st0.log .memoryUsage)).2.trace =
        [initialIdentity opts env] := by
    have h1 : dimCalls (st0.trace ++ [Event.memoryUsage]) = [] := by
      rw [htr]; cases opts.IsDryRun <;> rfl
    unfold memBaseDims
    split
    · right
      simp only [St.log]
      rw [dimCalls_append, h1, hmeta]; rfl
    · left
      exact h1
  simp only
  refine traceOf_bind_inv (I := fun tr => dimCalls tr = [] ∨ dimCalls tr = [initialIdentity opts env])
    (memAutoScaling_inv hI _ _ _ _ hm) fun ds _ h3 => ?_
  exact memMetrics_inv hI _ _ _ _ h3

theorem collect_dimCalls (opts : Options) (env : Env) :
    ∃ disk : List GoMap,
      dimCalls (traceOf St.trace (collect opts env)) =
        dimCalls (traceOf St.trace (memorySection opts env)) ++ disk ∧
      disk.length ≤ (stringsSplit opts.DiskPaths).length ∧
      (∀ (i : Nat) (m : GoMap), disk[i]? = some m →
        (stringsSplit opts.DiskPaths)[i]? = some (m.get "fileSystem")) ∧
      (∀ st, collect opts env = .ok st → opts.IsAggregated = false →
        disk.length = (stringsSplit opts.DiskPaths).length) := by
  unfold collect
  cases hm : memorySection opts env with
  | error h => exact ⟨[], by simp [bind, Except.bind, traceOf], by simp, by simp,
      by simp [bind, Except.bind]⟩
  | ok s2 =>
    obtain ⟨_, h2, h3, h4⟩ := loopDims_spec opts env (stringsSplit opts.DiskPaths) s2
    refine ⟨loopDims opts env (stringsSplit opts.DiskPaths) s2, ?_, h2, h3, ?_⟩
    · simp only [bind, Except.bind]
      rw [diskLoop_dimCalls]; rfl
    · intro st hst
      simp only [bind, Except.bind] at hst
      exact h4 st hst

/-- C4: the identity maps handed to `getDimensions` during a run are those of
the memory section followed by those of the loop; the i-th one of the loop has
`fileSystem` equal to the i-th configured path, there is one per path when the
run reaches submission without aggregation, and the one of the memory section
(at most one) is the initial identity, which has no `fileSystem` entry when
the resolved identity has none. -/
theorem getDimensions_identity (opts : Options) (env : Env)
    (hno : env.getInstanceMetadata.1.hasKey "fileSystem" = false) :
    ∃ mem disk : List GoMap,
      dimCalls (main opts env).trace = mem ++ disk ∧
      mem.length ≤ 1 ∧
      (∀ m ∈ mem, m = initialIdentity opts env ∧ m.hasKey "fileSystem" = false) ∧
      disk.length ≤ (stringsSplit opts.DiskPaths).length ∧
      (∀ (i : Nat) (m : GoMap), disk[i]? = some m →
        (stringsSplit opts.DiskPaths)[i]? = some (m.get "fileSystem")) ∧
      (∀ st, collect opts env = .ok st → opts.IsAggregated = false →
        disk.length = (stringsSplit opts.DiskPaths).length) := by
  obtain ⟨disk, h1, h2, h3, h4⟩ := collect_dimCalls opts env
  have hid : (initialIdentity opts env).hasKey "fileSystem" = false := by
    unfold initialIdentity
    split
    · decide
    · exact hno
  refine ⟨dimCalls (traceOf St.trace (memorySection opts env)), disk, ?_, ?_, ?_, h2, h3, h4⟩
  · rw [main_dimCalls, h1]
  · rcases memorySection_dimCalls opts env with h | h <;> simp [h]
  · intro m hm
    rcases memorySection_dimCalls opts env with h | h
    · simp [h] at hm
    · rw [h, List.mem_singleton] at hm
      subst hm
      exact ⟨rfl, hid⟩

/-- Witness of C4: the live sample run hands the resolved identity, then the
identity with `fileSystem` set to `/`, then to `/data`. -/
theorem getDimensions_identity_witness :
    sampleEnv.getInstanceMetadata.1.hasKey "fileSystem" = false ∧
    ∃ mem disk : List GoMap,
      dimCalls (main liveOpts sampleEnv).trace = mem ++ disk ∧
      mem.length ≤ 1 ∧
      (∀ m ∈ mem, m = initialIdentity liveOpts sampleEnv ∧ m.hasKey "fileSystem" = false) ∧
      disk.length ≤ (stringsSplit liveOpts.DiskPaths).length ∧
      (∀ (i : Nat) (m : GoMap), disk[i]? = some m →
        (stringsSplit liveOpts.DiskPaths)[i]? = some (m.get "fileSystem")) ∧
      (∀ st, collect liveOpts sampleEnv = .ok st → liveOpts.IsAggregated = false →
        disk.length = (stringsSplit liveOpts.DiskPaths).length) :=
  ⟨by decide, getDimensions_identity liveOpts sampleEnv (by decide)⟩

/-- C7: in a dry run no event of the trace is a call of `getInstanceMetadata`
or of `putMetric`, and the identity the run starts from is the placeholder map
region us-east-1, imageId i-fakefakefake, instanceType r3.fake. -/
theorem dry_run_placeholder (opts : Options) (env : Env) (hdry : opts.IsDryRun = true) :
    (∀ e ∈ (main opts env).trace, e ≠ Event.getInstanceMetadata ∧ e.isPutMetric = false) ∧
    loadMetadata opts env = .ok ⟨[], .entries [("region", "us-east-1"),
      ("imageId", "i-fakefakefake"), ("instanceType", "r3.fake")], []⟩ := by
  constructor
  · obtain ⟨extra, htr, hex⟩ := main_trace_dry opts env hdry
    have hc : ∀ e ∈ traceOf St.trace (collect opts env),
        e ≠ Event.getInstanceMetadata ∧ e.isPutMetric = false := by
      refine collect_inv
        (I := fun tr => ∀ e ∈ tr, e ≠ Event.getInstanceMetadata ∧ e.isPutMetric = false)
        ?_ opts env (by simp) (by simp [hdry])
      intro tr e he h x hx
      rcases List.mem_append.1 hx with hx | hx
      · exact h x hx
      · rw [List.mem_singleton] at hx
        subst hx
        cases x <;> simp_all [Event.isAssembly, Event.isPutMetric]
    intro e he
    rw [htr] at he
    rcases List.mem_append.1 he with he | he
    · exact hc e he
    · obtain ⟨s, hs⟩ := hex e he
      subst hs
      simp [Event.isPutMetric]
  · simp [loadMetadata, hdry, placeholderMetadata]

/-- Witness of C7: the dry run of the scenario. -/
theorem dry_run_placeholder_witness :
    scenarioOpts.IsDryRun = true ∧
    (∀ e ∈ (main scenarioOpts sampleEnv).trace,
      e ≠ Event.getInstanceMetadata ∧ e.isPutMetric = false) ∧
    loadMetadata scenarioOpts sampleEnv = .ok ⟨[], .entries [("region", "us-east-1"),
      ("imageId", "i-fakefakefake"), ("instanceType", "r3.fake")], []⟩ :=
  ⟨rfl, dry_run_placeholder scenarioOpts sampleEnv rfl⟩

/-- C9: when a run that is not a dry run reaches submission, the trace is the
trace of the assembly followed by one `putMetric` call, whose arguments are the
whole assembled batch, `opts.NameSpace` and the region of the resolved
identity; no earlier event is a `putMetric` call, so it is called exactly once. -/
theorem live_run_submits_once (opts : Options) (env : Env) (st : St)
    (hlive : opts.IsDryRun = false) (h : collect opts env = .ok st) :
    (main opts env).trace = st.trace ++
      [Event.putMetric st.metricData opts.NameSpace (env.getInstanceMetadata.1.get "region")] ∧
    assembledBatch opts env = some st.metricData ∧
    (∀ e ∈ st.trace, e.isPutMetric = false) ∧
    (main opts env).trace.countP Event.isPutMetric = 1 := by
  have hreg : st.metadata.get "region" = env.getInstanceMetadata.1.get "region" := by
    rw [(collect_ok h).1]; simp [initialIdentity, hlive]
  have hno : ∀ e ∈ st.trace, e.isPutMetric = false := by
    have := collect_inv (I := fun tr => ∀ e ∈ tr, e.isPutMetric = false)
      (by
        intro tr e he h x hx
        rcases List.mem_append.1 hx with hx | hx
        · exact h x hx
        · rw [List.mem_singleton] at hx
          subst hx
          cases x <;> simp_all [Event.isAssembly, Event.isPutMetric])
      opts env (by simp) (by simp [Event.isPutMetric])
    rw [h] at this
    exact this
  have htr : (main opts env).trace = st.trace ++
      [Event.putMetric st.metricData opts.NameSpace (env.getInstanceMetadata.1.get "region")] := by
    rw [main_ok h]
    unfold submit
    simp only [hlive, Bool.false_eq_true, if_false, hreg]
    split <;> rfl
  refine ⟨htr, by simp [assembledBatch, h], hno, ?_⟩
  rw [htr, List.countP_append, List.countP_eq_zero.2 (by simpa using hno)]
  simp [Event.isPutMetric]

/-- Witness of C9: the live sample run. -/
theorem live_run_submits_once_witness :
    liveOpts.IsDryRun = false ∧ collect liveOpts sampleEnv = .ok liveState ∧
    (main liveOpts sampleEnv).trace = liveState.trace ++
      [Event.putMetric liveState.metricData "Linux/System" "eu-west-1"] ∧
    (main liveOpts sampleEnv).trace.countP Event.isPutMetric = 1 :=
  ⟨rfl, by rfl, (live_run_submits_once liveOpts sampleEnv liveState rfl (by rfl)).1,
    (live_run_submits_once liveOpts sampleEnv liveState rfl (by rfl)).2.2.2⟩

/-- C10, counterexample: in the scenario the MemoryUtilization record has an
empty dimension set, although the dimensions built from the placeholder
identity are not empty; the two DiskUsed records do carry dimensions. -/
theorem scenario_counterexample :
    sampleEnv.getDimensions placeholderMetadata ≠ [] ∧
    (assembledBatch scenarioOpts sampleEnv).map
        (fun b => b.map (fun r => (r.metricName, r.unit, r.dimensions.isEmpty))) =
      some [("MemoryUtilization", "Percent", true), ("DiskUsed", "Bytes", false),
        ("DiskUsed", "Bytes", false)] := by
  constructor <;> decide

/-- C10, amended: in the scenario (only mem-util and disk-space-used, paths
`/,/data`, not aggregated, no auto-scaling, dry run), with the samplers
succeeding (`memoryUsage` and every `DiskSpace` call return a nil error), the
arguments parsing and `addMetric` appending its record without error, the
batch is exactly MemoryUtilization (Percent) with an empty dimension set, then
DiskUsed (Bytes) with the dimensions of the placeholder identity with
fileSystem `/`, then DiskUsed (Bytes) with those of the placeholder identity
with fileSystem `/data`. -/
theorem scenario_batch (env : Env) (hparse : env.parserParse = none)
    (hmem : env.memoryUsage.err = none)
    (hdisk : ∀ tr p, (env.DiskSpace tr p).err = none)
    (hadd : ∀ n u v d b, env.addMetric n u v d b = (b ++ [⟨n, u, v, d⟩], none)) :
    ∃ used1 used2 : Nat,
      assembledBatch scenarioOpts env = some
        [⟨"MemoryUtilization", "Percent", env.memoryUsage.memUtil, []⟩,
         ⟨"DiskUsed", "Bytes", env.float64 used1,
           env.getDimensions (.entries [("region", "us-east-1"), ("imageId", "i-fakefakefake"),
             ("instanceType", "r3.fake"), ("fileSystem", "/")])⟩,
         ⟨"DiskUsed", "Bytes", env.float64 used2,
           env.getDimensions (.entries [("region", "us-east-1"), ("imageId", "i-fakefakefake"),
             ("instanceType", "r3.fake"), ("fileSystem", "/data")])⟩] := by
  simp [assembledBatch, collect, memorySection, parseArgs, hparse, hmem, loadMetadata,
    scenarioOpts, noOpts, memBaseDims, memAutoScaling, memMetrics, addIf, hadd, diskLoop,
    diskStep, diskBaseDims, diskAutoScaling, diskMetrics, hdisk, stringsSplit_scenario,
    placeholderMetadata, GoMap.set, assignEntry, St.log, bind, Except.bind]

/-- Witness of C10 (amended): the scenario on the sample environment. -/
theorem scenario_batch_witness :
    sampleEnv.parserParse = none ∧
    sampleEnv.memoryUsage.err = none ∧
    (∀ tr p, (sampleEnv.DiskSpace tr p).err = none) ∧
    (∀ n u v d b, sampleEnv.addMetric n u v d b = (b ++ [⟨n, u, v, d⟩], none)) ∧
    ∃ used1 used2 : Nat,
      assembledBatch scenarioOpts sampleEnv = some
        [⟨"MemoryUtilization", "Percent", sampleEnv.memoryUsage.memUtil, []⟩,
         ⟨"DiskUsed", "Bytes", sampleEnv.float64 used1,
           sampleEnv.getDimensions (.entries [("region", "us-east-1"),
             ("imageId", "i-fakefakefake"), ("instanceType", "r3.fake"), ("fileSystem", "/")])⟩,
         ⟨"DiskUsed", "Bytes", sampleEnv.float64 used2,
           sampleEnv.getDimensions (.entries [("region", "us-east-1"),
             ("imageId", "i-fakefakefake"), ("instanceType", "r3.fake"),
             ("fileSystem", "/data")])⟩] :=
  ⟨rfl, rfl, fun _ _ => rfl, fun _ _ _ _ _ => rfl,
    scenario_batch sampleEnv rfl rfl (fun _ _ => rfl) (fun _ _ _ _ _ => rfl)⟩

/-- C5, failing input: auto-scaling requested in a live run while the resolver
returns `(nil, err)` at both call sites.  The run does not abort: it goes on
to `putMetric` and returns normally. -/
theorem group_error_not_fatal :
    main groupOpts groupErrorEnv =
      ⟨[Event.getInstanceMetadata, Event.memoryUsage, Event.getDimensions sampleIdentity,
        Event.getAutoscalingGroup "i-0abc" "eu-west-1",
        Event.addMetric "MemoryUtilization" "Percent" 11
          [⟨"InstanceId", "i-0abc"⟩, ⟨"ImageId", "ami-1"⟩, ⟨"InstanceType", "t2.micro"⟩],
        Event.DiskSpace "/",
        Event.getDimensions (.entries [("region", "eu-west-1"), ("instanceId", "i-0abc"),
          ("imageId", "ami-1"), ("instanceType", "t2.micro"), ("fileSystem", "/")]),
        Event.getAutoscalingGroup "i-0abc" "eu-west-1",
        Event.putMetric
          [⟨"MemoryUtilization", "Percent", 11,
            [⟨"InstanceId", "i-0abc"⟩, ⟨"ImageId", "ami-1"⟩, ⟨"InstanceType", "t2.micro"⟩]⟩]
          "Linux/System" "eu-west-1"],
       Outcome.returned⟩ ∧
    groupErrorEnv.getAutoscalingGroup [] "i-0abc" "eu-west-1" =
      (none, some "DescribeAutoScalingInstances failed") := by
  constructor <;> decide

/-- C6, failing input: the memory sampler returns an error in a dry run with
mem-util.  The run does not abort: `addMetric` receives the sampler's value
and the dry-run output is printed. -/
theorem memory_error_not_fatal :
    memErrorEnv.memoryUsage.err = some "cannot read /proc/meminfo" ∧
    main dryMemOpts memErrorEnv =
      ⟨[Event.memoryUsage, Event.addMetric "MemoryUtilization" "Percent" 0 [],
        Event.DiskSpace "/",
        Event.getDimensions (.entries [("region", "us-east-1"), ("imageId", "i-fakefakefake"),
          ("instanceType", "r3.fake"), ("fileSystem", "/")]),
        Event.printf "Dry run. metric data that would be sent:\n",
        Event.printf "MemoryUtilization"],
       Outcome.returned⟩ := by
  constructor <;> decide

/-- C8, failing input: a dry run with auto-scaling and one path.  The loop
calls `getAutoscalingGroup`, with the empty instance id of the placeholder
identity. -/
theorem dry_run_calls_resolver :
    dryGroupOpts.IsDryRun = true ∧
    Event.getAutoscalingGroup "" "us-east-1" ∈ (main dryGroupOpts sampleEnv).trace ∧
    ((main dryGroupOpts sampleEnv).trace.filter Event.isGetAutoscalingGroup).length = 1 := by
  refine ⟨rfl, ?_, ?_⟩ <;> decide

end GoAwsMon
